import Mathlib

/-!
Verification development for the pyrepl terminal line-editing engine.

The Lean definitions below are a shallow embedding of the Python sources:

* `Pyrepl.UnixConsole.*` embeds `pyrepl/unix_console.py` (`UnixConsole.refresh`,
  `__write_changed_line`, the cursor-movement helpers, `move_cursor`,
  `get_event`, `getpending`).  Because `refresh` mutates the Python list object
  the caller passes in (`screen.append("")`, `self.screen = screen`), screens
  live in an explicit store (a list of screen values addressed by `Nat`
  references); the engine state holds a reference, and the caller's screen is
  passed as a reference, so aliasing between the two is faithfully modelled.
* `Pyrepl.KeymapTranslator.*` embeds `pyrepl/input.py`.
* `Pyrepl.Buffer.*` embeds the `Buffer` class of `pyrepl/unix_console.py`
  (`push`, `flush`, `__tputs`).

Machine-level details the Python runtime supplies (terminfo capability byte
strings, the `unicodedata.category` function, text encoding, the event-queue
byte decoder of `pyrepl/unix_eventqueue.py`) are passed in as explicit
parameters, so every definition stays executable.
-/

namespace Pyrepl

/-- A screen line, as a list of characters (a Python `str`). -/
abbrev Line := List Char

/-- A screen value: the contents of one Python list of lines. -/
abbrev ScreenV := List Line

/-- The store of screen list objects; a `Nat` index is a Python object
reference.  `UnixConsole.refresh` mutates the caller's list in place, so the
model threads this store through the console state. -/
abbrev Store := List ScreenV

/-- Dereference a screen list object (out-of-range reads give `[]`). -/
def sget (s : Store) (r : Nat) : ScreenV := s.getD r []

/-- Overwrite the contents of a screen list object (out-of-range writes are
dropped; theorems that depend on a write carry a bound on the reference). -/
def sset (s : Store) (r : Nat) (v : ScreenV) : Store := s.set r v

/-- Python slice `l[a:b]` for non-negative bounds. -/
def pyslice {α : Type} (l : List α) (a b : Nat) : List α := (l.take b).drop a

/-- Python indexing `l[i]`; the default is never reached on the paths the
source exercises (the guards of `__write_changed_line` keep `i` in range). -/
def pygetD (l : Line) (i : Nat) : Char := l.getD i (Char.ofNat 0)

/-- `pyrepl.console.Event`: kind, decoded text, raw bytes.  The source builds
`Event("scroll", None)` with `data = None`; the model uses `""` for that
payload, which no claim inspects. -/
structure PEvent where
  evt : String
  data : String
  raw : List Nat
deriving DecidableEq, Repr

/-- One item pushed onto the output buffer: either a literal text chunk
(`UnixConsole.__write`) or one terminal-capability invocation with its
arguments.  Which control bytes a capability expands to lives in the terminfo
database; claims about emission count the invocations themselves. -/
inductive OutItem where
  | text (s : Line)
  | bell
  | cursor_invisible
  | cursor_normal
  | clear_eol
  | clear_screen
  | cursor_address (row col : Int)
  | parm_down_cursor (n : Int)
  | parm_up_cursor (n : Int)
  | parm_right_cursor (n : Int)
  | parm_left_cursor (n : Int)
  | scroll_reverse
  | scroll_forward
  | insert_character
  | delete_character
deriving DecidableEq, Repr

/-- The capability support flags `refresh` consults (`_scroll_reverse
.supported`, `_scroll_forward.supported`, `self.insert_character is not None`,
`self.delete_character is not None`).  Horizontal and vertical movement are
embedded in their parameterized form (`__move_x_parm_cursor` /
`__move_y_parm_cursor`), the variant `__init__` selects when the parm
capabilities are supported. -/
structure TermConfig where
  scroll_reverse : Bool
  scroll_forward : Bool
  has_insert_character : Bool
  has_delete_character : Bool
deriving DecidableEq, Repr

/-- The mutable state of a `UnixConsole`: the store of screen list objects,
the reference held in `self.screen`, `self.height`/`self.width`,
`self.__posxy`, `self.__offset`, `self.__gone_tall` (which also encodes the
`self.__move` dispatch), `self.cursor_visible`, and the events inserted into
`self.event_queue` by `move_cursor`. -/
structure CState where
  store : Store
  screenRef : Nat
  height : Nat
  width : Nat
  posx : Nat
  posy : Nat
  offset : Nat
  gone_tall : Bool
  cursor_visible : Bool
  events : List PEvent
deriving DecidableEq, Repr

namespace UnixConsole

/-- `UnixConsole.__hide_cursor`. -/
def hide_cursor (st : CState) : CState × List OutItem :=
  if st.cursor_visible then ({ st with cursor_visible := false }, [.cursor_invisible])
  else (st, [])

/-- `UnixConsole.__show_cursor`. -/
def show_cursor (st : CState) : CState × List OutItem :=
  if st.cursor_visible then (st, [])
  else ({ st with cursor_visible := true }, [.cursor_normal])

/-- `UnixConsole.__move_x_parm_cursor` (emission only; `__posxy` is updated
by the callers, as in the source). -/
def move_x_parm_cursor (st : CState) (x : Int) : List OutItem :=
  let dx := x - (st.posx : Int)
  if 0 < dx then [.parm_right_cursor dx]
  else if dx < 0 then [.parm_left_cursor (-dx)]
  else []

/-- `UnixConsole.__move_y_parm_cursor`. -/
def move_y_parm_cursor (st : CState) (y : Int) : List OutItem :=
  let dy := y - (st.posy : Int)
  if 0 < dy then [.parm_down_cursor dy]
  else if dy < 0 then [.parm_up_cursor (-dy)]
  else []

/-- `UnixConsole.__move_short`. -/
def move_short (st : CState) (x y : Int) : List OutItem :=
  move_x_parm_cursor st x ++ move_y_parm_cursor st y

/-- `UnixConsole.__move_tall`: unconditional absolute addressing relative to
the scroll offset.  (The source's `assert` is elided; it is inactive under
`python -O` and no claim depends on it.) -/
def move_tall (st : CState) (x y : Int) : List OutItem :=
  [.cursor_address (y - (st.offset : Int)) x]

/-- `self.__move`: `refresh` rebinds this method to `__move_tall` exactly when
it sets `__gone_tall`, so the dispatch is a function of that flag. -/
def cmove (st : CState) (x y : Int) : List OutItem :=
  if st.gone_tall then move_tall st x y else move_short st x y

/-- `UnixConsole.move_cursor`. -/
def move_cursor (st : CState) (x y : Nat) : CState × List OutItem :=
  if y < st.offset ∨ st.offset + st.height ≤ y then
    ({ st with events := st.events ++ [⟨"scroll", "", []⟩] }, [])
  else
    ({ st with posx := x, posy := y }, cmove st x y)

/-- The scan `while x < minlen and oldline[x] == newline[x] and newline[x] !=
"\x1b": x += 1` of `__write_changed_line`. -/
def diffIdx : Line → Line → Nat
  | a :: as, b :: bs => if a = b ∧ b ≠ '\x1b' then diffIdx as bs + 1 else 0
  | _, _ => 0

/-- `UnixConsole.__write_changed_line`.  The four reconciliation strategies in
source order; `px` is the x-coordinate `refresh` captured from `__posxy`
before the line loop.  The only intentional deviation: the source moves to
`self.width - 2`, which in Python may be negative for `width < 2`; the model
uses the integer value for the move and truncated `Nat` subtraction for the
stored position (no claim involves `width < 2`). -/
def write_changed_line (cfg : TermConfig) (st : CState) (y : Nat)
    (oldline newline : Line) (px : Nat) : CState × List OutItem :=
  let minlen := min oldline.length newline.length
  let x0 := diffIdx oldline newline
  let r :=
    if oldline.drop x0 = newline.drop (x0 + 1) ∧ cfg.has_insert_character then
      let x := if y = st.posy ∧ st.posx < x0 ∧
                  pyslice oldline px x0 = pyslice newline (px + 1) (x0 + 1)
               then px else x0
      ({ st with posx := x + 1, posy := y },
        cmove st x y ++ [.insert_character, .text [pygetD newline x]])
    else if x0 < minlen ∧ oldline.drop (x0 + 1) = newline.drop (x0 + 1) then
      ({ st with posx := x0 + 1, posy := y },
        cmove st x0 y ++ [.text [pygetD newline x0]])
    else if cfg.has_delete_character ∧ cfg.has_insert_character ∧
            newline.length = st.width ∧ x0 < newline.length - 2 ∧
            pyslice newline (x0 + 1) (newline.length - 1) =
              pyslice oldline x0 (oldline.length - 2) then
      let h := hide_cursor st
      let m1 := cmove h.1 ((st.width : Int) - 2) y
      let st2 := { h.1 with posx := st.width - 2, posy := y }
      let m2 := cmove st2 x0 y
      ({ st2 with posx := x0 + 1, posy := y },
        h.2 ++ m1 ++ [.delete_character] ++ m2 ++
          [.insert_character, .text [pygetD newline x0]])
    else
      let h := hide_cursor st
      let m1 := cmove h.1 x0 y
      let ce := if newline.length < oldline.length then [OutItem.clear_eol] else []
      ({ h.1 with posx := newline.length, posy := y },
        h.2 ++ m1 ++ ce ++ [.text (newline.drop x0)])
  if newline.contains '\x1b' then
    let mc := move_cursor r.1 0 y
    (mc.1, r.2 ++ mc.2)
  else r

/-- The line loop of `refresh`: `for y, oldline, newline in
zip(range(offset, offset + height), oldscr, newscr)`.  The first `Nat`
argument is the number of rows the `range` still covers. -/
def reconcile_lines (cfg : TermConfig) :
    CState → Nat → Nat → List Line → List Line → Nat → CState × List OutItem
  | st, Nat.succ n, y, o :: os, nl :: ns, px =>
      let r1 := if o ≠ nl then write_changed_line cfg st y o nl px else (st, [])
      let r2 := reconcile_lines cfg r1.1 n (y + 1) os ns px
      (r2.1, r1.2 ++ r2.2)
  | st, _, _, _, _, _ => (st, [])

/-- The trailing-line clearing loop of `refresh` (`y = len(newscr); while y <
len(oldscr): ...`).  The last argument is the remaining iteration count. -/
def clear_tail : CState → Nat → Nat → CState × List OutItem
  | st, _, 0 => (st, [])
  | st, y, Nat.succ n =>
      let h := hide_cursor st
      let m := cmove h.1 0 (y : Int)
      let st2 := { h.1 with posx := 0, posy := y }
      let r := clear_tail st2 (y + 1) n
      (r.1, h.2 ++ m ++ [.clear_eol] ++ r.2)

/-- The short-mode growth loop of `refresh` (`while len(self.screen) <
min(len(screen), self.height): ...`).  Fuel bounds the iterations;
`refresh` supplies `self.height`, which always suffices because each pass
appends one line to `self.screen` and the bound is at most `height`. -/
def grow_short : Nat → CState → Nat → CState × List OutItem
  | 0, st, _ => (st, [])
  | Nat.succ fuel, st, argRef =>
      let selfScr := sget st.store st.screenRef
      if selfScr.length < min (sget st.store argRef).length st.height then
        let h := hide_cursor st
        let m := cmove h.1 0 ((selfScr.length : Int) - 1)
        let st2 := { h.1 with posx := 0, posy := selfScr.length }
        let st3 := { st2 with store := sset st2.store st2.screenRef (selfScr ++ [[]]) }
        let r := grow_short fuel st3 argRef
        (r.1, h.2 ++ m ++ [.text ['\n']] ++ r.2)
      else (st, [])

/-- The tall-mode growth loop of `refresh` (`while len(self.screen) <
len(screen): self.screen.append("")`); emits nothing.  Fuel is the length of
the caller's screen, which always suffices. -/
def grow_tall : Nat → CState → Nat → CState
  | 0, st, _ => st
  | Nat.succ fuel, st, argRef =>
      let selfScr := sget st.store st.screenRef
      if selfScr.length < (sget st.store argRef).length then
        grow_tall fuel
          { st with store := sset st.store st.screenRef (selfScr ++ [[]]) } argRef
      else st

/-- The reverse hardware-scroll loop of `refresh`: each pass emits one
`scroll_reverse`, pops the last line of the local `oldscr` copy and inserts a
blank line at the top. -/
def scroll_rev_loop : Nat → ScreenV → ScreenV × List OutItem
  | 0, scr => (scr, [])
  | Nat.succ n, scr =>
      let r := scroll_rev_loop n ([] :: scr.dropLast)
      (r.1, OutItem.scroll_reverse :: r.2)

/-- The forward hardware-scroll loop of `refresh`. -/
def scroll_fwd_loop : Nat → ScreenV → ScreenV × List OutItem
  | 0, scr => (scr, [])
  | Nat.succ n, scr =>
      let r := scroll_fwd_loop n (scr.drop 1 ++ [[]])
      (r.1, OutItem.scroll_forward :: r.2)

/-- The offset-adjustment policy of `refresh` (lines 290–296 of
`unix_console.py`), as a function of the old offset, height, the length of the
desired screen and the desired cursor row. -/
def new_offset (o h L cy : Nat) : Nat :=
  if cy < o then cy
  else if o + h ≤ cy then cy - h + 1
  else if 0 < o ∧ L < o + h then max (L - h) 0
  else o

/-- Whether the third offset-adjustment branch fires, i.e. whether `refresh`
executes `screen.append("")` on the caller's list. -/
def snap_append (o h L cy : Nat) : Bool :=
  if cy < o then false
  else if o + h ≤ cy then false
  else decide (0 < o ∧ L < o + h)

/-- Lines 269–278 of `refresh`: grow `self.screen` with blank lines (writing
newlines while still short of the terminal height in short mode; silently in
tall mode). -/
def refresh_grown (st : CState) (argRef : Nat) :
    CState × List OutItem :=
  if st.gone_tall then
    (grow_tall (sget st.store argRef).length st argRef, ([] : List OutItem))
  else grow_short st.height st argRef

/-- Lines 280–282 of `refresh`: enter tall mode (and switch `__move` to
`__move_tall`) once the desired screen exceeds the terminal height. -/
def refresh_tallify (st : CState) (argRef : Nat) : CState :=
  if st.height < (sget st.store argRef).length then { st with gone_tall := true }
  else st

/-- Line 296 of `refresh`: the `screen.append("")` executed when the window
snaps back because the content would fit without scrolling — a mutation of
the caller's list object. -/
def refresh_snap (st : CState) (argRef cy : Nat) : CState :=
  if snap_append st.offset st.height (sget st.store argRef).length cy then
    { st with store := sset st.store argRef (sget st.store argRef ++ [[]]) }
  else st

/-- Lines 302–317 of `refresh`: hardware scrolling, rewriting the local
`oldscr` copy; `h` is `self.height`. -/
def refresh_scroll (cfg : TermConfig) (st : CState) (old_offset offset h : Nat)
    (oldscr0 : ScreenV) : CState × ScreenV × List OutItem :=
  if offset < old_offset ∧ cfg.scroll_reverse then
    let hc := hide_cursor st
    let st2 := { hc.1 with posx := 0, posy := old_offset }
    let r := scroll_rev_loop (old_offset - offset) oldscr0
    (st2, r.1, hc.2 ++ [OutItem.cursor_address 0 0] ++ r.2)
  else if old_offset < offset ∧ cfg.scroll_forward then
    let hc := hide_cursor st
    let st2 := { hc.1 with posx := 0, posy := old_offset + h - 1 }
    let r := scroll_fwd_loop (offset - old_offset) oldscr0
    (st2, r.1, hc.2 ++ [OutItem.cursor_address ((h : Int) - 1) 0] ++ r.2)
  else (st, oldscr0, ([] : List OutItem))

/-- `UnixConsole.refresh`.  `argRef` is the reference to the caller's screen
list (which may alias `st.screenRef`); the result pairs the post-call console
state with everything the call pushed to the output buffer, in order (the
trailing `flushoutput` writes exactly these items once). -/
def refresh (cfg : TermConfig) (st : CState) (argRef : Nat) (c : Nat × Nat) :
    CState × List OutItem :=
  let cx := c.1
  let cy := c.2
  let g := refresh_grown st argRef
  let stB := refresh_tallify g.1 argRef
  let px := stB.posx
  let old_offset := stB.offset
  let scrLen := (sget stB.store argRef).length
  let offset := new_offset old_offset stB.height scrLen cy
  let stC := refresh_snap stB argRef cy
  let oldscr0 := pyslice (sget stC.store stC.screenRef) old_offset (old_offset + stB.height)
  let newscr := pyslice (sget stC.store argRef) offset (offset + stB.height)
  let s := refresh_scroll cfg stC old_offset offset stB.height oldscr0
  let stD := s.1
  let oldscr := s.2.1
  let outD := s.2.2
  let stE := { stD with offset := offset }
  let rl := reconcile_lines cfg stE stB.height offset oldscr newscr px
  let ct := clear_tail rl.1 newscr.length (oldscr.length - newscr.length)
  let sc := show_cursor ct.1
  let stI := { sc.1 with screenRef := argRef }
  let mc := move_cursor stI cx cy
  (mc.1, g.2 ++ outD ++ rl.2 ++ ct.2 ++ sc.2 ++ mc.2)

/-- A scripted sequence of `refresh` calls: each entry is the caller's screen
reference and the desired cursor. -/
def refresh_seq (cfg : TermConfig) : CState → List (Nat × Nat × Nat) → CState
  | st, [] => st
  | st, (r, x, y) :: rest => refresh_seq cfg (refresh cfg st r (x, y)).1 rest

/-- Result of one `os.read(self.input_fd, 1)` attempt inside
`UnixConsole.get_event`: a byte, an `EINTR` interruption (carrying whatever
events the signal handler inserted into the queue during the blocked read), or
another `OSError` errno. -/
inductive ReadRes where
  | ok (b : Nat)
  | eintr (inj : List PEvent)
  | fail (errno : Nat)
deriving DecidableEq, Repr

/-- Outcome of `UnixConsole.get_event`: a returned event (or `None` in
non-blocking mode) together with the remaining queue and unconsumed read
results, a propagated errno, or blocking forever on an exhausted read trace. -/
inductive GEOut where
  | ret (e : Option PEvent) (q : List PEvent) (rest : List ReadRes)
  | raised (errno : Nat)
  | blocked
deriving DecidableEq, Repr

/-- `UnixConsole.get_event`.  `pushFn` is the event queue's `push` applied to
one raw byte (modelled from the spec: the event source of
`pyrepl/unix_eventqueue.py` is not under `src/`; §6 gives it `push(raw_byte)`,
`get()`, `empty()`, `insert(Event)` with a list-of-events queue).  Each loop
iteration consumes one entry of the read trace. -/
def get_event (pushFn : List PEvent → Nat → List PEvent) :
    List PEvent → List ReadRes → Bool → GEOut
  | e :: qrest, reads, _ => .ret (some e) qrest reads
  | [], [], _ => .blocked
  | [], ReadRes.ok b :: rs, block =>
      let q2 := pushFn [] b
      if block then get_event pushFn q2 rs block
      else .ret q2.head? q2.tail rs
  | [], ReadRes.eintr inj :: rs, block =>
      match inj with
      | e :: qrest => .ret (some e) qrest rs
      | [] => get_event pushFn [] rs block
  | [], ReadRes.fail e :: _, _ => .raised e

/-- The queue-draining loop of `UnixConsole.getpending`, accumulating `e.data`
and `e.raw`.  The source reads `e.data += e2.data` but `e.raw += e.raw` — the
raw accumulator is appended to itself, which is embedded verbatim as
`r ++ r`. -/
def getpending_drain : String → List Nat → List PEvent → String × List Nat
  | d, r, [] => (d, r)
  | d, r, e2 :: q => getpending_drain (d ++ e2.data) (r ++ r) q

/-- `UnixConsole.getpending`: drain the queue into one synthetic key event,
then append the immediately available raw input `avail` and its decoding
(`decode` stands for `str(raw, self.encoding, "replace")`); the queue is left
empty. -/
def getpending (decode : List Nat → String) (q : List PEvent) (avail : List Nat) :
    PEvent × List PEvent :=
  let dr := getpending_drain "" [] q
  (⟨"key", dr.1 ++ decode avail, dr.2 ++ avail⟩, [])

end UnixConsole

namespace KeymapTranslator

/-- A value in the compiled keymap trie (`compile_keymap` output): either a
nested node (the key sequence continues) or a command leaf.  Nodes are
association lists keyed by the event data string. -/
inductive KVal where
  | sub (children : List (String × KVal))
  | cmd (c : String)

/-- `dict.get` on a trie node. -/
def alookup : List (String × KVal) → String → Option KVal
  | [], _ => none
  | (k, v) :: r, key => if k = key then some v else alookup r key

/-- `dict` item assignment on a trie node (`self.k[key] = self.character_cls`). -/
def aset : List (String × KVal) → String → KVal → List (String × KVal)
  | [], k, v => [(k, v)]
  | (k2, v2) :: r, k, v => if k2 = k then (k, v) :: r else (k2, v2) :: aset r k v

/-- The constructor arguments of `KeymapTranslator` the `push` method uses:
the invalid and literal-character command classes, and the environment's
`unicodedata.category` function. -/
structure KTConfig where
  invalid_cls : String
  character_cls : String
  cat : String → String

/-- The mutable state of a `KeymapTranslator`: the root node `self.ck`, the
current node `self.k` (in the source a reference into the same structure),
the pending key stack and the queued results. -/
structure KTState where
  root : List (String × KVal)
  cur : List (String × KVal)
  stack : List String
  results : List (String × List String)

/-- A freshly constructed translator positioned at the root. -/
def init (root : List (String × KVal)) : KTState :=
  ⟨root, root, [], []⟩

/-- `KeymapTranslator.push`.  `key` is `evt.data`.  In the memoizing branch
the source mutates the dict `self.k`, which there is the root dict itself
(the branch requires an empty stack); the model updates `root` and re-points
`cur` at it, mirroring the aliasing. -/
def push (cfg : KTConfig) (st : KTState) (key : String) : KTState :=
  match alookup st.cur key with
  | some (KVal.sub d) => { st with stack := st.stack ++ [key], cur := d }
  | some (KVal.cmd c) =>
      { st with results := st.results ++ [(c, st.stack ++ [key])],
                stack := [], cur := st.root }
  | none =>
      if st.stack ≠ [] ∨ 1 < key.length ∨ cfg.cat key = "C" then
        { st with results := st.results ++ [(cfg.invalid_cls, st.stack ++ [key])],
                  stack := [], cur := st.root }
      else
        let root2 := aset st.root key (KVal.cmd cfg.character_cls)
        { root := root2, cur := root2, stack := [],
          results := st.results ++ [(cfg.character_cls, [key])] }

/-- Push a whole sequence of key events. -/
def pushList (cfg : KTConfig) (st : KTState) (keys : List String) : KTState :=
  keys.foldl (push cfg) st

end KeymapTranslator

namespace Buffer

/-- An output-buffer item: a literal text chunk, or a `TermCapability` whose
`text()` rendering is the given control-byte string (the rendering itself
lives in the terminfo database behind `pyrepl/term.py`). -/
inductive BufItem where
  | text (s : String)
  | cap (fmt : List Nat)
deriving DecidableEq, Repr

/-- Greedy run of ASCII digits with its value (`int(m.group(1))`). -/
def readDigits : List Nat → Nat → Nat × List Nat
  | b :: r, acc =>
      if 48 ≤ b ∧ b ≤ 57 then readDigits r (acc * 10 + (b - 48)) else (acc, b :: r)
  | [], acc => (acc, [])

/-- Up to two `/` or `*` bytes (`(?:/|\*){0,2}`), recording whether a `*`
occurred (`b"*" in m.group(2)`). -/
def readSeps : List Nat → Nat → Bool → Bool × List Nat
  | b :: r, Nat.succ n, star =>
      if b = 47 ∨ b = 42 then readSeps r n (star ∨ b = 42) else (star, b :: r)
  | rest, _, star => (star, rest)

/-- Match the delay pattern `\$<([0-9]+)((?:/|\*){0,2})>` at the head of the
byte string; on success return the delay value, the star flag and the bytes
after the match.  The regex needs no backtracking here: the digit run and the
separator run are followed by a byte neither could also match. -/
def matchDelayAt : List Nat → Option (Nat × Bool × List Nat)
  | 36 :: 60 :: rest =>
      match rest with
      | b :: _ =>
          if 48 ≤ b ∧ b ≤ 57 then
            let d := readDigits rest 0
            let s := readSeps d.2 2 false
            match s.2 with
            | 62 :: tail => some (d.1, s.1, tail)
            | _ => none
          else none
      | [] => none
  | _ => none

/-- `delayprog.search`: the first match of the delay pattern, split as
(bytes before the match, delay, star flag, bytes after the match). -/
def findDelay : List Nat → Option (List Nat × Nat × Bool × List Nat)
  | [] => none
  | b :: bs =>
      match matchDelayAt (b :: bs) with
      | some (d, s, rest) => some ([], d, s, rest)
      | none =>
          match findDelay bs with
          | some (p, d, s, r) => some (b :: p, d, s, r)
          | none => none

/-- An exception escaping `Buffer.__tputs` mid-loop: `delay *= self.height`
raises `AttributeError` (the `Buffer` class never sets a `height`
attribute), and `bps * delay` raises `TypeError` when
`ratedict.get(ospeed)` returned `None`. -/
inductive PyErr where
  | attributeError
  | typeError
deriving DecidableEq, Repr

/-- The loop body of `Buffer.__tputs`, fuelled by the format length (each
match consumes at least four bytes, so the fuel never runs out on the
recursive path).  The result pairs the `os.write` byte strings performed so
far with the exception, if one was raised.  Per loop pass the source writes
the bytes before the match, then on a starred delay evaluates
`delay *= self.height` — which raises `AttributeError`, since `Buffer` has
no `height` attribute — then, when the pad capability is supported,
evaluates `bps * delay`, which raises `TypeError` when `bps` is `None`
(`ratedict.get` missed), and otherwise writes the pad text; with the pad
capability unsupported it sleeps instead of writing.  `padText` models
`PadChar.text` from `pyrepl/term.py` (not under `src/`), applied to the
truncated pad-character count (the source computes a Python float). -/
def tputsAux (bps : Option Nat) (padSup : Bool) (padText : Nat → List Nat) :
    Nat → List Nat → List (List Nat) × Option PyErr
  | 0, fmt => ([fmt], none)
  | Nat.succ n, fmt =>
      match findDelay fmt with
      | none => ([fmt], none)
      | some (pre, d, star, post) =>
          if star then ([pre], some PyErr.attributeError)
          else if padSup then
            match bps with
            | none => ([pre], some PyErr.typeError)
            | some b =>
                let r := tputsAux bps padSup padText n post
                (pre :: padText (b * d / 1000) :: r.1, r.2)
          else
            let r := tputsAux bps padSup padText n post
            (pre :: r.1, r.2)

/-- `Buffer.__tputs`: the sequence of `os.write` byte strings it performs for
one capability text, and the exception that aborted it, if any. -/
def tputs (bps : Option Nat) (padSup : Bool) (padText : Nat → List Nat)
    (fmt : List Nat) : List (List Nat) × Option PyErr :=
  tputsAux bps padSup padText fmt.length fmt

/-- The pending-output queue `Buffer.__buf`. -/
structure OBuf where
  buf : List BufItem
deriving DecidableEq, Repr

/-- `Buffer.push`. -/
def push (b : OBuf) (i : BufItem) : OBuf := ⟨b.buf ++ [i]⟩

/-- `Buffer.clear`. -/
def clear (_ : OBuf) : OBuf := ⟨[]⟩

/-- The writes `Buffer.flush` performs for one item, with the exception that
aborted them, if any: encoded text (`item.encode(self.__encoding,
"replace")`, with `enc` standing for the codec), or the capability's text
expanded through `__tputs`. -/
def itemWrites (enc : String → List Nat) (bps : Option Nat) (padSup : Bool)
    (padText : Nat → List Nat) : BufItem → List (List Nat) × Option PyErr
  | .text s => ([enc s], none)
  | .cap fmt => tputs bps padSup padText fmt

/-- The `for item in self.__buf` loop of `Buffer.flush`: writes performed in
order until an item's expansion raises, in which case the exception
propagates and the loop stops. -/
def flushWrites (enc : String → List Nat) (bps : Option Nat) (padSup : Bool)
    (padText : Nat → List Nat) : List BufItem → List (List Nat) × Option PyErr
  | [] => ([], none)
  | i :: rest =>
      let w := itemWrites enc bps padSup padText i
      match w.2 with
      | some e => (w.1, some e)
      | none =>
          let r := flushWrites enc bps padSup padText rest
          (w.1 ++ r.1, r.2)

/-- `Buffer.flush`: write every queued item in order, then clear the queue —
unless an item's expansion raises, in which case the exception propagates
before `self.clear()` runs and the queue keeps all its items (the ones
already written included).  The result is (writes performed, resulting
buffer, raised exception if any). -/
def flush (enc : String → List Nat) (bps : Option Nat) (padSup : Bool)
    (padText : Nat → List Nat) (b : OBuf) : List (List Nat) × OBuf × Option PyErr :=
  let r := flushWrites enc bps padSup padText b.buf
  match r.2 with
  | none => (r.1, clear b, none)
  | some e => (r.1, b, some e)

end Buffer

/-! ### Lemmas about the keymap translator -/

namespace KeymapTranslator

/-- One `push` extends the reconstruction trace (emitted key stacks followed
by the pending stack) by exactly the pushed key. -/
theorem push_trace_eq (cfg : KTConfig) (st : KTState) (key : String) :
    ((push cfg st key).results.map Prod.snd).flatten ++ (push cfg st key).stack =
      ((st.results.map Prod.snd).flatten ++ st.stack) ++ [key] := by
  unfold push
  cases h : alookup st.cur key with
  | none =>
      simp only [h]
      split
      · simp
      · rename_i hc
        push_neg at hc
        simp [hc.1]
  | some v =>
      cases v with
      | sub d => simp [h]
      | cmd c => simp [h]

/-- `push` only appends results, and every appended result carries a
non-empty key stack. -/
theorem push_results_nonempty (cfg : KTConfig) (st : KTState) (key : String)
    (h : ∀ r ∈ st.results, r.2 ≠ []) :
    ∀ r ∈ (push cfg st key).results, r.2 ≠ [] := by
  unfold push
  cases hl : alookup st.cur key with
  | none =>
      simp only [hl]
      split
      · intro r hr
        rcases List.mem_append.1 hr with h1 | h2
        · exact h r h1
        · simp at h2; simp [h2]
      · intro r hr
        rcases List.mem_append.1 hr with h1 | h2
        · exact h r h1
        · simp at h2; simp [h2]
  | some v =>
      cases v with
      | sub d => simpa using h
      | cmd c =>
          intro r hr
          rcases List.mem_append.1 hr with h1 | h2
          · exact h r h1
          · simp at h2; simp [h2]

/-- Pushing a key list extends the reconstruction trace by those keys. -/
theorem pushList_trace (cfg : KTConfig) (keys : List String) : ∀ st : KTState,
    ((pushList cfg st keys).results.map Prod.snd).flatten ++ (pushList cfg st keys).stack =
      ((st.results.map Prod.snd).flatten ++ st.stack) ++ keys := by
  induction keys with
  | nil => intro st; simp [pushList]
  | cons k ks ih =>
      intro st
      have hstep : pushList cfg st (k :: ks) = pushList cfg (push cfg st k) ks := rfl
      rw [hstep, ih (push cfg st k), push_trace_eq]
      simp

/-- Pushing a key list preserves non-emptiness of all emitted key stacks. -/
theorem pushList_nonempty (cfg : KTConfig) (keys : List String) : ∀ st : KTState,
    (∀ r ∈ st.results, r.2 ≠ []) →
    ∀ r ∈ (pushList cfg st keys).results, r.2 ≠ [] := by
  induction keys with
  | nil => intro st h; simpa [pushList] using h
  | cons k ks ih =>
      intro st h
      exact ih (push cfg st k) (push_results_nonempty cfg st k h)

/-- C3: for every compiled keymap trie (compiled tries are prefix-free by
construction: a node entry is either a nested node or a command leaf, never
both) and every finite sequence of pushed key events, each emitted result
carries a non-empty key stack, and the concatenation of the emitted key
stacks in emission order, followed by the pending prefix still held on the
stack, reconstructs exactly the pushed key sequence. -/
theorem C3_translator_reconstruction (cfg : KTConfig)
    (root : List (String × KVal)) (keys : List String) :
    (∀ r ∈ (pushList cfg (init root) keys).results, r.2 ≠ []) ∧
    ((pushList cfg (init root) keys).results.map Prod.snd).flatten ++
        (pushList cfg (init root) keys).stack = keys := by
  constructor
  · exact pushList_nonempty cfg keys (init root) (by simp [init])
  · simpa [init] using pushList_trace cfg keys (init root)

/-- `aset` makes the assigned key resolve to the assigned value. -/
theorem alookup_aset_self (l : List (String × KVal)) (key : String) (v : KVal) :
    alookup (aset l key v) key = some v := by
  induction l with
  | nil => simp [aset, alookup]
  | cons p r ih =>
      by_cases h : p.1 = key
      · simp [aset, h, alookup]
      · simp [aset, h, alookup, ih]

/-- C6: a key event whose code misses from the root with no pending prefix,
is a single character and is not a control character is emitted as a
literal-character result carrying just that key, the mapping is memoized into
the root node, and a second push of the same key resolves through that root
entry directly to the same literal-character result. -/
theorem C6_literal_memoization (cfg : KTConfig) (st : KTState) (key : String)
    (hroot : st.cur = st.root) (hstack : st.stack = [])
    (hmiss : alookup st.root key = none) (hlen : key.length = 1)
    (hcat : cfg.cat key ≠ "C") :
    (push cfg st key).results = st.results ++ [(cfg.character_cls, [key])] ∧
    alookup (push cfg st key).root key = some (KVal.cmd cfg.character_cls) ∧
    (push cfg (push cfg st key) key).results =
      (push cfg st key).results ++ [(cfg.character_cls, [key])] := by
  have hcond : ¬(st.stack ≠ [] ∨ 1 < key.length ∨ cfg.cat key = "C") := by
    push_neg
    exact ⟨hstack, by omega, hcat⟩
  have h1 : push cfg st key =
      { root := aset st.root key (KVal.cmd cfg.character_cls),
        cur := aset st.root key (KVal.cmd cfg.character_cls), stack := [],
        results := st.results ++ [(cfg.character_cls, [key])] } := by
    unfold push
    rw [hroot, hmiss]
    simp only [if_neg hcond]
  refine ⟨by rw [h1], by rw [h1]; exact alookup_aset_self _ _ _, ?_⟩
  rw [h1]
  unfold push
  simp [alookup_aset_self]

/-- Witness for C6 at a concrete translator state and key. -/
theorem C6_literal_memoization_witness :
    let cfg : KTConfig := ⟨"invalid", "character", fun _ => "Ll"⟩
    let st := init []
    (push cfg st "a").results = [("character", ["a"])] ∧
    alookup (push cfg st "a").root "a" = some (KVal.cmd "character") ∧
    (push cfg (push cfg st "a") "a").results =
      [("character", ["a"]), ("character", ["a"])] := by
  intro cfg st
  have h := C6_literal_memoization cfg st "a" rfl rfl rfl rfl (by decide)
  exact ⟨h.1, h.2.1, h.2.2⟩

end KeymapTranslator

/-! ### Lemmas about the output buffer -/

namespace Buffer

/-- Pushing a list of items appends them, in order, to the queue. -/
theorem foldl_push_buf (items : List BufItem) : ∀ b : OBuf,
    (items.foldl push b).buf = b.buf ++ items := by
  induction items with
  | nil => intro b; simp
  | cons i is ih => intro b; rw [List.foldl_cons, ih]; simp [push]

/-- When no queued item's expansion raises, the flush loop writes every
item's expansion, in order. -/
theorem flushWrites_ok (enc : String → List Nat) (bps : Option Nat)
    (padSup : Bool) (padText : Nat → List Nat) :
    ∀ items : List BufItem,
    (∀ i ∈ items, (itemWrites enc bps padSup padText i).2 = none) →
    flushWrites enc bps padSup padText items =
      ((items.map (fun i => (itemWrites enc bps padSup padText i).1)).flatten,
        none) := by
  intro items
  induction items with
  | nil => intro _; rfl
  | cons i rest ih =>
      intro h
      rw [flushWrites]
      dsimp only
      rw [h i (by simp), ih (fun j hj => h j (by simp [hj]))]
      simp

/-- C7 counterexample: the claim as stated fails on a capability whose
expansion contains a proportional (starred) delay, e.g. `b"A$<5*>"`.  The
source's `delay *= self.height` raises `AttributeError` — `Buffer` never
sets a `height` attribute — after the prefix `b"A"` was already written and
before `self.clear()` runs, so the queue still holds the item and an
immediately following flush writes the same prefix a second time. -/
theorem C7_flush_counterexample :
    (flush (fun _ => []) (some 9600) false (fun _ => [])
        ⟨[BufItem.cap [65, 36, 60, 53, 42, 62]]⟩).1 = [[65]] ∧
    (flush (fun _ => []) (some 9600) false (fun _ => [])
        ⟨[BufItem.cap [65, 36, 60, 53, 42, 62]]⟩).2.2 =
      some PyErr.attributeError ∧
    (flush (fun _ => []) (some 9600) false (fun _ => [])
        ⟨[BufItem.cap [65, 36, 60, 53, 42, 62]]⟩).2.1.buf ≠ [] ∧
    (flush (fun _ => []) (some 9600) false (fun _ => [])
      (flush (fun _ => []) (some 9600) false (fun _ => [])
        ⟨[BufItem.cap [65, 36, 60, 53, 42, 62]]⟩).2.1).1 = [[65]] := by
  refine ⟨rfl, rfl, by decide, rfl⟩

/-- C7 (amended): provided no queued item's expansion raises (no capability
text with a starred delay, and, when the pad capability is supported with a
delay present, a known terminal speed), flushing a buffer onto which a
sequence of items was pushed writes each item exactly once, in push order
(text encoded, capabilities expanded through `__tputs`), leaves the queue
empty, and an immediately following flush writes nothing.  Without that
proviso the exception escapes before `clear()` and the queue survives; see
the counterexample. -/
theorem C7_flush_in_order_once_then_empty (enc : String → List Nat)
    (bps : Option Nat) (padSup : Bool) (padText : Nat → List Nat)
    (items : List BufItem)
    (hok : ∀ i ∈ items, (itemWrites enc bps padSup padText i).2 = none) :
    (flush enc bps padSup padText (items.foldl push ⟨[]⟩)).1 =
      (items.map (fun i => (itemWrites enc bps padSup padText i).1)).flatten ∧
    (flush enc bps padSup padText (items.foldl push ⟨[]⟩)).2.1.buf = [] ∧
    (flush enc bps padSup padText (items.foldl push ⟨[]⟩)).2.2 = none ∧
    (flush enc bps padSup padText
      (flush enc bps padSup padText (items.foldl push ⟨[]⟩)).2.1).1 = [] := by
  have hbuf : (items.foldl push ⟨[]⟩).buf = items := by
    rw [foldl_push_buf]; rfl
  unfold flush
  rw [hbuf, flushWrites_ok enc bps padSup padText items hok]
  exact ⟨rfl, rfl, rfl, rfl⟩

/-- Witness for the amended C7 on a concrete error-free item sequence: one
text chunk and one capability with an unstarred delay, pad supported, known
speed. -/
theorem C7_flush_in_order_once_then_empty_witness :
    (∀ i ∈ [BufItem.text "a", BufItem.cap [27, 36, 60, 53, 62, 66]],
      (itemWrites (fun _ => [97]) (some 9600) true (fun n => List.replicate n 0)
        i).2 = none) ∧
    ((flush (fun _ => [97]) (some 9600) true (fun n => List.replicate n 0)
        ([BufItem.text "a", BufItem.cap [27, 36, 60, 53, 62, 66]].foldl push
          ⟨[]⟩)).1 =
      ([BufItem.text "a", BufItem.cap [27, 36, 60, 53, 62, 66]].map
        (fun i => (itemWrites (fun _ => [97]) (some 9600) true
          (fun n => List.replicate n 0) i).1)).flatten ∧
      (flush (fun _ => [97]) (some 9600) true (fun n => List.replicate n 0)
        ([BufItem.text "a", BufItem.cap [27, 36, 60, 53, 62, 66]].foldl push
          ⟨[]⟩)).2.1.buf = [] ∧
      (flush (fun _ => [97]) (some 9600) true (fun n => List.replicate n 0)
        ([BufItem.text "a", BufItem.cap [27, 36, 60, 53, 62, 66]].foldl push
          ⟨[]⟩)).2.2 = none ∧
      (flush (fun _ => [97]) (some 9600) true (fun n => List.replicate n 0)
        (flush (fun _ => [97]) (some 9600) true (fun n => List.replicate n 0)
          ([BufItem.text "a", BufItem.cap [27, 36, 60, 53, 62, 66]].foldl push
            ⟨[]⟩)).2.1).1 = []) :=
  ⟨by decide,
   C7_flush_in_order_once_then_empty (fun _ => [97]) (some 9600) true
     (fun n => List.replicate n 0)
     [BufItem.text "a", BufItem.cap [27, 36, 60, 53, 62, 66]] (by decide)⟩

end Buffer

/-! ### Store lemmas -/

theorem sget_sset_ne : ∀ (s : Store) (k r : Nat) (v : ScreenV), k ≠ r →
    sget (sset s k v) r = sget s r
  | [], _, _, _, _ => rfl
  | _ :: _, 0, 0, _, h => absurd rfl h
  | _ :: _, 0, _ + 1, _, _ => rfl
  | _ :: _, _ + 1, 0, _, _ => rfl
  | _ :: xs, k + 1, r + 1, v, h =>
      sget_sset_ne xs k r v (fun e => h (by omega))

theorem sget_sset_self : ∀ (s : Store) (k : Nat) (v : ScreenV), k < s.length →
    sget (sset s k v) k = v
  | _ :: _, 0, _, _ => rfl
  | _ :: xs, k + 1, v, h => sget_sset_self xs k v (by simpa using h)

theorem sset_length (s : Store) (k : Nat) (v : ScreenV) :
    (sset s k v).length = s.length := by
  simp [sset]

/-! ### Geometry preservation in the refresh engine

Each phase of `refresh` that runs after the offset is committed only touches
the cursor position, the cursor-visibility flag and the event queue.  `EqGeo`
relates two states that agree on every other field; the lemmas below state
that each phase preserves it. -/

/-- The two states agree on the store, the screen reference, the dimensions,
the scroll offset and the tall flag. -/
def EqGeo (a b : CState) : Prop :=
  a.store = b.store ∧ a.screenRef = b.screenRef ∧ a.height = b.height ∧
  a.width = b.width ∧ a.offset = b.offset ∧ a.gone_tall = b.gone_tall

theorem eqGeo_refl (a : CState) : EqGeo a a := ⟨rfl, rfl, rfl, rfl, rfl, rfl⟩

theorem eqGeo_trans {a b c : CState} (h1 : EqGeo a b) (h2 : EqGeo b c) :
    EqGeo a c :=
  ⟨h1.1.trans h2.1, h1.2.1.trans h2.2.1, h1.2.2.1.trans h2.2.2.1,
   h1.2.2.2.1.trans h2.2.2.2.1, h1.2.2.2.2.1.trans h2.2.2.2.2.1,
   h1.2.2.2.2.2.trans h2.2.2.2.2.2⟩

namespace UnixConsole

theorem hide_cursor_geo (st : CState) : EqGeo (hide_cursor st).1 st := by
  unfold hide_cursor
  split <;> exact ⟨rfl, rfl, rfl, rfl, rfl, rfl⟩

theorem show_cursor_geo (st : CState) : EqGeo (show_cursor st).1 st := by
  unfold show_cursor
  split <;> exact ⟨rfl, rfl, rfl, rfl, rfl, rfl⟩

theorem move_cursor_geo (st : CState) (x y : Nat) :
    EqGeo (move_cursor st x y).1 st := by
  unfold move_cursor
  split <;> exact ⟨rfl, rfl, rfl, rfl, rfl, rfl⟩

theorem write_changed_line_geo (cfg : TermConfig) (st : CState) (y : Nat)
    (oldline newline : Line) (px : Nat) :
    EqGeo (write_changed_line cfg st y oldline newline px).1 st := by
  unfold write_changed_line
  dsimp only
  split
  · refine eqGeo_trans (move_cursor_geo _ 0 y) ?_
    repeat' split
    all_goals
      first
        | exact ⟨rfl, rfl, rfl, rfl, rfl, rfl⟩
        | exact eqGeo_trans ⟨rfl, rfl, rfl, rfl, rfl, rfl⟩ (hide_cursor_geo st)
  · repeat' split
    all_goals
      first
        | exact ⟨rfl, rfl, rfl, rfl, rfl, rfl⟩
        | exact eqGeo_trans ⟨rfl, rfl, rfl, rfl, rfl, rfl⟩ (hide_cursor_geo st)

theorem reconcile_lines_geo (cfg : TermConfig) :
    ∀ (n : Nat) (st : CState) (y : Nat) (olds news : List Line) (px : Nat),
    EqGeo (reconcile_lines cfg st n y olds news px).1 st := by
  intro n
  induction n with
  | zero =>
      intro st y olds news px
      cases olds <;> cases news <;> exact eqGeo_refl st
  | succ n ih =>
      intro st y olds news px
      cases olds with
      | nil => exact eqGeo_refl st
      | cons o os =>
        cases news with
        | nil => exact eqGeo_refl st
        | cons nl ns =>
            show EqGeo (reconcile_lines cfg _ n (y + 1) os ns px).1 st
            refine eqGeo_trans (ih _ (y + 1) os ns px) ?_
            split
            · exact write_changed_line_geo cfg st y o nl px
            · exact eqGeo_refl st

theorem clear_tail_geo : ∀ (n : Nat) (st : CState) (y : Nat),
    EqGeo (clear_tail st y n).1 st := by
  intro n
  induction n with
  | zero => intro st y; exact eqGeo_refl st
  | succ n ih =>
      intro st y
      show EqGeo (clear_tail _ (y + 1) n).1 st
      refine eqGeo_trans (ih _ (y + 1)) ?_
      exact eqGeo_trans ⟨rfl, rfl, rfl, rfl, rfl, rfl⟩ (hide_cursor_geo st)

end UnixConsole

/-- The two states agree on screen reference, dimensions, offset and tall
flag (the store may differ: the growth loops append blank lines to the
engine's own screen object). -/
def EqDims (a b : CState) : Prop :=
  a.screenRef = b.screenRef ∧ a.height = b.height ∧ a.width = b.width ∧
  a.offset = b.offset ∧ a.gone_tall = b.gone_tall

theorem eqDims_refl (a : CState) : EqDims a a := ⟨rfl, rfl, rfl, rfl, rfl⟩

theorem eqDims_trans {a b c : CState} (h1 : EqDims a b) (h2 : EqDims b c) :
    EqDims a c :=
  ⟨h1.1.trans h2.1, h1.2.1.trans h2.2.1, h1.2.2.1.trans h2.2.2.1,
   h1.2.2.2.1.trans h2.2.2.2.1, h1.2.2.2.2.trans h2.2.2.2.2⟩

theorem eqGeo_dims {a b : CState} (h : EqGeo a b) : EqDims a b :=
  ⟨h.2.1, h.2.2.1, h.2.2.2.1, h.2.2.2.2.1, h.2.2.2.2.2⟩

namespace UnixConsole

theorem grow_short_dims : ∀ (fuel : Nat) (st : CState) (argRef : Nat),
    EqDims (grow_short fuel st argRef).1 st := by
  intro fuel
  induction fuel with
  | zero => intro st argRef; exact eqDims_refl st
  | succ n ih =>
      intro st argRef
      rw [grow_short]
      dsimp only
      split
      · refine eqDims_trans (ih _ argRef)
          (eqDims_trans ?_ (eqGeo_dims (hide_cursor_geo st)))
        exact ⟨rfl, rfl, rfl, rfl, rfl⟩
      · exact eqDims_refl st

theorem grow_short_sget_arg : ∀ (fuel : Nat) (st : CState) (argRef : Nat),
    sget (grow_short fuel st argRef).1.store argRef = sget st.store argRef := by
  intro fuel
  induction fuel with
  | zero => intro st argRef; rfl
  | succ n ih =>
      intro st argRef
      rw [grow_short]
      dsimp only
      split
      · rename_i hcond
        have hmin := Nat.min_le_left (sget st.store argRef).length st.height
        have hne : st.screenRef ≠ argRef := by
          intro he
          rw [he] at hcond
          omega
        rw [ih]
        show sget (sset (hide_cursor st).1.store (hide_cursor st).1.screenRef _) argRef = _
        rw [(hide_cursor_geo st).1, (hide_cursor_geo st).2.1]
        exact sget_sset_ne _ _ _ _ hne
      · rfl

theorem grow_short_store_len : ∀ (fuel : Nat) (st : CState) (argRef : Nat),
    (grow_short fuel st argRef).1.store.length = st.store.length := by
  intro fuel
  induction fuel with
  | zero => intro st argRef; rfl
  | succ n ih =>
      intro st argRef
      rw [grow_short]
      dsimp only
      split
      · rw [ih]
        show (sset (hide_cursor st).1.store _ _).length = _
        rw [sset_length, (hide_cursor_geo st).1]
      · rfl

theorem grow_tall_dims : ∀ (fuel : Nat) (st : CState) (argRef : Nat),
    EqDims (grow_tall fuel st argRef) st := by
  intro fuel
  induction fuel with
  | zero => intro st argRef; exact eqDims_refl st
  | succ n ih =>
      intro st argRef
      rw [grow_tall]
      split
      · exact eqDims_trans (ih _ argRef) ⟨rfl, rfl, rfl, rfl, rfl⟩
      · exact eqDims_refl st

theorem grow_tall_sget_arg : ∀ (fuel : Nat) (st : CState) (argRef : Nat),
    sget (grow_tall fuel st argRef).store argRef = sget st.store argRef := by
  intro fuel
  induction fuel with
  | zero => intro st argRef; rfl
  | succ n ih =>
      intro st argRef
      rw [grow_tall]
      split
      · rename_i hcond
        have hne : st.screenRef ≠ argRef := by
          intro he
          rw [he] at hcond
          omega
        rw [ih]
        exact sget_sset_ne _ _ _ _ hne
      · rfl

theorem grow_tall_store_len : ∀ (fuel : Nat) (st : CState) (argRef : Nat),
    (grow_tall fuel st argRef).store.length = st.store.length := by
  intro fuel
  induction fuel with
  | zero => intro st argRef; rfl
  | succ n ih =>
      intro st argRef
      rw [grow_tall]
      split
      · rw [ih, sset_length]
      · rfl

/-! Component projections of the geometry lemmas, in rewrite form. -/

theorem move_cursor_store (st : CState) (x y : Nat) :
    (move_cursor st x y).1.store = st.store := (move_cursor_geo st x y).1

theorem move_cursor_screenRef (st : CState) (x y : Nat) :
    (move_cursor st x y).1.screenRef = st.screenRef := (move_cursor_geo st x y).2.1

theorem move_cursor_height (st : CState) (x y : Nat) :
    (move_cursor st x y).1.height = st.height := (move_cursor_geo st x y).2.2.1

theorem move_cursor_offset (st : CState) (x y : Nat) :
    (move_cursor st x y).1.offset = st.offset := (move_cursor_geo st x y).2.2.2.2.1

theorem move_cursor_gone_tall (st : CState) (x y : Nat) :
    (move_cursor st x y).1.gone_tall = st.gone_tall :=
  (move_cursor_geo st x y).2.2.2.2.2

theorem show_cursor_store (st : CState) :
    (show_cursor st).1.store = st.store := (show_cursor_geo st).1

theorem show_cursor_screenRef (st : CState) :
    (show_cursor st).1.screenRef = st.screenRef := (show_cursor_geo st).2.1

theorem show_cursor_height (st : CState) :
    (show_cursor st).1.height = st.height := (show_cursor_geo st).2.2.1

theorem show_cursor_offset (st : CState) :
    (show_cursor st).1.offset = st.offset := (show_cursor_geo st).2.2.2.2.1

theorem show_cursor_gone_tall (st : CState) :
    (show_cursor st).1.gone_tall = st.gone_tall := (show_cursor_geo st).2.2.2.2.2

theorem clear_tail_store (st : CState) (y n : Nat) :
    (clear_tail st y n).1.store = st.store := (clear_tail_geo n st y).1

theorem clear_tail_screenRef (st : CState) (y n : Nat) :
    (clear_tail st y n).1.screenRef = st.screenRef := (clear_tail_geo n st y).2.1

theorem clear_tail_height (st : CState) (y n : Nat) :
    (clear_tail st y n).1.height = st.height := (clear_tail_geo n st y).2.2.1

theorem clear_tail_offset (st : CState) (y n : Nat) :
    (clear_tail st y n).1.offset = st.offset := (clear_tail_geo n st y).2.2.2.2.1

theorem clear_tail_gone_tall (st : CState) (y n : Nat) :
    (clear_tail st y n).1.gone_tall = st.gone_tall :=
  (clear_tail_geo n st y).2.2.2.2.2

theorem reconcile_lines_store (cfg : TermConfig) (st : CState)
    (n y : Nat) (olds news : List Line) (px : Nat) :
    (reconcile_lines cfg st n y olds news px).1.store = st.store :=
  (reconcile_lines_geo cfg n st y olds news px).1

theorem reconcile_lines_screenRef (cfg : TermConfig) (st : CState)
    (n y : Nat) (olds news : List Line) (px : Nat) :
    (reconcile_lines cfg st n y olds news px).1.screenRef = st.screenRef :=
  (reconcile_lines_geo cfg n st y olds news px).2.1

theorem reconcile_lines_height (cfg : TermConfig) (st : CState)
    (n y : Nat) (olds news : List Line) (px : Nat) :
    (reconcile_lines cfg st n y olds news px).1.height = st.height :=
  (reconcile_lines_geo cfg n st y olds news px).2.2.1

theorem reconcile_lines_offset (cfg : TermConfig) (st : CState)
    (n y : Nat) (olds news : List Line) (px : Nat) :
    (reconcile_lines cfg st n y olds news px).1.offset = st.offset :=
  (reconcile_lines_geo cfg n st y olds news px).2.2.2.2.1

theorem reconcile_lines_gone_tall (cfg : TermConfig) (st : CState)
    (n y : Nat) (olds news : List Line) (px : Nat) :
    (reconcile_lines cfg st n y olds news px).1.gone_tall = st.gone_tall :=
  (reconcile_lines_geo cfg n st y olds news px).2.2.2.2.2

/-! Phase lemmas for `refresh`. -/

theorem refresh_grown_dims (st : CState) (argRef : Nat) :
    EqDims (refresh_grown st argRef).1 st := by
  unfold refresh_grown
  split
  · exact grow_tall_dims _ st argRef
  · exact grow_short_dims _ st argRef

theorem refresh_grown_height (st : CState) (argRef : Nat) :
    (refresh_grown st argRef).1.height = st.height := (refresh_grown_dims st argRef).2.1

theorem refresh_grown_offset (st : CState) (argRef : Nat) :
    (refresh_grown st argRef).1.offset = st.offset :=
  (refresh_grown_dims st argRef).2.2.2.1

theorem refresh_grown_gone_tall (st : CState) (argRef : Nat) :
    (refresh_grown st argRef).1.gone_tall = st.gone_tall :=
  (refresh_grown_dims st argRef).2.2.2.2

theorem refresh_grown_sget_arg (st : CState) (argRef : Nat) :
    sget (refresh_grown st argRef).1.store argRef = sget st.store argRef := by
  unfold refresh_grown
  split
  · exact grow_tall_sget_arg _ st argRef
  · exact grow_short_sget_arg _ st argRef

theorem refresh_grown_store_len (st : CState) (argRef : Nat) :
    (refresh_grown st argRef).1.store.length = st.store.length := by
  unfold refresh_grown
  split
  · exact grow_tall_store_len _ st argRef
  · exact grow_short_store_len _ st argRef

theorem refresh_tallify_store (st : CState) (argRef : Nat) :
    (refresh_tallify st argRef).store = st.store := by
  unfold refresh_tallify; split <;> rfl

theorem refresh_tallify_height (st : CState) (argRef : Nat) :
    (refresh_tallify st argRef).height = st.height := by
  unfold refresh_tallify; split <;> rfl

theorem refresh_tallify_offset (st : CState) (argRef : Nat) :
    (refresh_tallify st argRef).offset = st.offset := by
  unfold refresh_tallify; split <;> rfl

theorem refresh_tallify_gone_tall (st : CState) (argRef : Nat) :
    (refresh_tallify st argRef).gone_tall =
      (st.gone_tall || decide (st.height < (sget st.store argRef).length)) := by
  unfold refresh_tallify
  split
  · rename_i h; simp [h]
  · rename_i h; simp [h]

theorem refresh_snap_dims (st : CState) (argRef cy : Nat) :
    EqDims (refresh_snap st argRef cy) st := by
  unfold refresh_snap; split <;> exact ⟨rfl, rfl, rfl, rfl, rfl⟩

theorem refresh_snap_height (st : CState) (argRef cy : Nat) :
    (refresh_snap st argRef cy).height = st.height :=
  (refresh_snap_dims st argRef cy).2.1

theorem refresh_snap_gone_tall (st : CState) (argRef cy : Nat) :
    (refresh_snap st argRef cy).gone_tall = st.gone_tall :=
  (refresh_snap_dims st argRef cy).2.2.2.2

theorem refresh_snap_store (st : CState) (argRef cy : Nat) :
    (refresh_snap st argRef cy).store =
      (if snap_append st.offset st.height (sget st.store argRef).length cy then
        sset st.store argRef (sget st.store argRef ++ [[]])
      else st.store) := by
  unfold refresh_snap
  split <;> rename_i h <;> simp [h]

theorem refresh_scroll_geo (cfg : TermConfig) (st : CState)
    (old_offset offset h : Nat) (scr : ScreenV) :
    EqGeo (refresh_scroll cfg st old_offset offset h scr).1 st := by
  unfold refresh_scroll
  dsimp only
  split
  · exact eqGeo_trans ⟨rfl, rfl, rfl, rfl, rfl, rfl⟩ (hide_cursor_geo st)
  · split
    · exact eqGeo_trans ⟨rfl, rfl, rfl, rfl, rfl, rfl⟩ (hide_cursor_geo st)
    · exact eqGeo_refl st

theorem refresh_scroll_store (cfg : TermConfig) (st : CState)
    (old_offset offset h : Nat) (scr : ScreenV) :
    (refresh_scroll cfg st old_offset offset h scr).1.store = st.store :=
  (refresh_scroll_geo cfg st old_offset offset h scr).1

theorem refresh_scroll_height (cfg : TermConfig) (st : CState)
    (old_offset offset h : Nat) (scr : ScreenV) :
    (refresh_scroll cfg st old_offset offset h scr).1.height = st.height :=
  (refresh_scroll_geo cfg st old_offset offset h scr).2.2.1

theorem refresh_scroll_gone_tall (cfg : TermConfig) (st : CState)
    (old_offset offset h : Nat) (scr : ScreenV) :
    (refresh_scroll cfg st old_offset offset h scr).1.gone_tall = st.gone_tall :=
  (refresh_scroll_geo cfg st old_offset offset h scr).2.2.2.2.2

theorem show_cursor_visible (st : CState) :
    (show_cursor st).1.cursor_visible = true := by
  unfold show_cursor
  split
  · rename_i h; exact h
  · rfl

/-- The final state of `refresh` is the final `move_cursor` applied to an
intermediate state whose geometry this lemma pins down; every refresh-level
invariant below reads off this anatomy. -/
theorem refresh_after (cfg : TermConfig) (st : CState) (argRef : Nat)
    (c : Nat × Nat) :
    ∃ mid : CState,
      (refresh cfg st argRef c).1 = (move_cursor mid c.1 c.2).1 ∧
      mid.screenRef = argRef ∧
      mid.height = st.height ∧
      mid.offset = new_offset st.offset st.height (sget st.store argRef).length c.2 ∧
      mid.gone_tall =
        (st.gone_tall || decide (st.height < (sget st.store argRef).length)) ∧
      mid.cursor_visible = true ∧
      mid.store.length = st.store.length ∧
      (snap_append st.offset st.height (sget st.store argRef).length c.2 = false →
        sget mid.store argRef = sget st.store argRef) ∧
      (argRef < st.store.length →
        sget mid.store argRef =
          (if snap_append st.offset st.height (sget st.store argRef).length c.2 then
            sget st.store argRef ++ [[]]
          else sget st.store argRef)) := by
  unfold refresh
  dsimp only
  refine ⟨_, rfl, rfl, ?_, ?_, ?_, ?_, ?_, ?_, ?_⟩
  · rw [show_cursor_height, clear_tail_height, reconcile_lines_height,
      refresh_scroll_height, refresh_snap_height, refresh_tallify_height,
      refresh_grown_height]
  · rw [show_cursor_offset, clear_tail_offset, reconcile_lines_offset,
      refresh_tallify_offset, refresh_grown_offset, refresh_tallify_height,
      refresh_grown_height, refresh_tallify_store, refresh_grown_sget_arg]
  · rw [show_cursor_gone_tall, clear_tail_gone_tall, reconcile_lines_gone_tall,
      refresh_scroll_gone_tall, refresh_snap_gone_tall, refresh_tallify_gone_tall,
      refresh_grown_gone_tall, refresh_grown_height, refresh_grown_sget_arg]
  · rw [show_cursor_visible]
  · rw [show_cursor_store, clear_tail_store, reconcile_lines_store,
      refresh_scroll_store, refresh_snap_store, refresh_tallify_store,
      refresh_tallify_offset, refresh_tallify_height, refresh_grown_offset,
      refresh_grown_height, refresh_grown_sget_arg]
    split
    · rw [sset_length, refresh_grown_store_len]
    · rw [refresh_grown_store_len]
  · intro hsnap
    rw [show_cursor_store, clear_tail_store, reconcile_lines_store,
      refresh_scroll_store, refresh_snap_store, refresh_tallify_store,
      refresh_tallify_offset, refresh_tallify_height, refresh_grown_offset,
      refresh_grown_height, refresh_grown_sget_arg, hsnap]
    simp only [Bool.false_eq_true, if_false]
    rw [refresh_grown_sget_arg]
  · intro hlt
    rw [show_cursor_store, clear_tail_store, reconcile_lines_store,
      refresh_scroll_store, refresh_snap_store, refresh_tallify_store,
      refresh_tallify_offset, refresh_tallify_height, refresh_grown_offset,
      refresh_grown_height, refresh_grown_sget_arg]
    split
    · rw [sget_sset_self]
      rw [refresh_grown_store_len]
      exact hlt
    · rw [refresh_grown_sget_arg]

/-- The offset-adjustment policy keeps a valid cursor row inside the window
whenever the terminal height is positive. -/
theorem new_offset_window (o h L cy : Nat) (hh : 0 < h) (hcy : cy < L) :
    new_offset o h L cy ≤ cy ∧ cy < new_offset o h L cy + h := by
  unfold new_offset
  split
  · omega
  · split
    · omega
    · split
      · rw [Nat.max_zero]
        omega
      · omega

/-- C1: after any `refresh` whose desired cursor names a valid row of the
desired screen (and the recorded terminal height is positive), the vertical
scroll offset satisfies `offset ≤ cy < offset + height`, `height` being the
height recorded at prepare time (refresh never changes it). -/
theorem C1_refresh_offset_window (cfg : TermConfig) (st : CState)
    (argRef : Nat) (cx cy : Nat) (hh : 0 < st.height)
    (hcy : cy < (sget st.store argRef).length) :
    (refresh cfg st argRef (cx, cy)).1.offset ≤ cy ∧
    cy < (refresh cfg st argRef (cx, cy)).1.offset + st.height ∧
    (refresh cfg st argRef (cx, cy)).1.height = st.height := by
  obtain ⟨mid, heq, _, hhei, hoff, _⟩ := refresh_after cfg st argRef (cx, cy)
  rw [heq, move_cursor_offset, move_cursor_height, hoff, hhei]
  have hw := new_offset_window st.offset st.height
    (sget st.store argRef).length cy hh hcy
  exact ⟨hw.1, hw.2, rfl⟩

/-- Witness for C1 on a concrete tall refresh. -/
theorem C1_refresh_offset_window_witness :
    0 < 2 ∧ 2 < 3 ∧
    ((refresh ⟨true, true, true, true⟩
        ⟨[[], [['a'], ['b'], ['c']]], 0, 2, 80, 0, 0, 0, false, true, []⟩
        1 (0, 2)).1.offset ≤ 2 ∧
      2 < (refresh ⟨true, true, true, true⟩
        ⟨[[], [['a'], ['b'], ['c']]], 0, 2, 80, 0, 0, 0, false, true, []⟩
        1 (0, 2)).1.offset + 2 ∧
      (refresh ⟨true, true, true, true⟩
        ⟨[[], [['a'], ['b'], ['c']]], 0, 2, 80, 0, 0, 0, false, true, []⟩
        1 (0, 2)).1.height = 2) :=
  ⟨by decide, by decide,
   C1_refresh_offset_window ⟨true, true, true, true⟩
     ⟨[[], [['a'], ['b'], ['c']]], 0, 2, 80, 0, 0, 0, false, true, []⟩
     1 0 2 (by decide) (by decide)⟩

/-- Any single `refresh` maps the tall flag to `old ∨ (desired screen taller
than the recorded height)` — in particular it never clears it. -/
theorem refresh_gone_tall_eq (cfg : TermConfig) (st : CState) (argRef : Nat)
    (c : Nat × Nat) :
    (refresh cfg st argRef c).1.gone_tall =
      (st.gone_tall || decide (st.height < (sget st.store argRef).length)) := by
  obtain ⟨mid, heq, _, _, _, hgt, _⟩ := refresh_after cfg st argRef c
  rw [heq, move_cursor_gone_tall, hgt]

/-- Once tall, any scripted sequence of further `refresh` calls stays tall. -/
theorem refresh_seq_gone_tall (cfg : TermConfig) (calls : List (Nat × Nat × Nat)) :
    ∀ st : CState, st.gone_tall = true →
    (refresh_seq cfg st calls).gone_tall = true := by
  induction calls with
  | nil => intro st h; exact h
  | cons c rest ih =>
      intro st h
      obtain ⟨r, x, y⟩ := c
      rw [refresh_seq]
      apply ih
      rw [refresh_gone_tall_eq, h, Bool.true_or]

/-- C4: tall mode is one-directional within a session.  As soon as one
`refresh` call passes a screen whose number of lines exceeds the recorded
terminal height, the engine is in tall mode, and no scripted sequence of
later `refresh` calls in the same session — screens shorter than the
terminal height included — ever returns it to short mode. -/
theorem C4_tall_mode_permanent (cfg : TermConfig) (st : CState) (argRef : Nat)
    (cx cy : Nat) (calls : List (Nat × Nat × Nat))
    (htall : st.height < (sget st.store argRef).length) :
    (refresh cfg st argRef (cx, cy)).1.gone_tall = true ∧
    (refresh_seq cfg (refresh cfg st argRef (cx, cy)).1 calls).gone_tall = true := by
  have h1 : (refresh cfg st argRef (cx, cy)).1.gone_tall = true := by
    rw [refresh_gone_tall_eq, decide_eq_true htall, Bool.or_true]
  exact ⟨h1, refresh_seq_gone_tall cfg calls _ h1⟩

/-- Witness for C4: the spec's scripted short–tall–short round trip, starting
from a freshly prepared engine that first renders a short screen. -/
theorem C4_tall_mode_permanent_witness :
    ((refresh ⟨true, true, true, true⟩
        ⟨[[], [['a']], [['a'], ['b'], ['c']], [['d']]], 0, 2, 80, 0, 0, 0,
          false, true, []⟩ 1 (0, 0)).1.height <
      (sget (refresh ⟨true, true, true, true⟩
        ⟨[[], [['a']], [['a'], ['b'], ['c']], [['d']]], 0, 2, 80, 0, 0, 0,
          false, true, []⟩ 1 (0, 0)).1.store 2).length) ∧
    (refresh_seq ⟨true, true, true, true⟩
      (refresh ⟨true, true, true, true⟩
        (refresh ⟨true, true, true, true⟩
          ⟨[[], [['a']], [['a'], ['b'], ['c']], [['d']]], 0, 2, 80, 0, 0, 0,
            false, true, []⟩ 1 (0, 0)).1 2 (0, 2)).1
      [(3, 0, 0)]).gone_tall = true :=
  ⟨by decide,
   (C4_tall_mode_permanent ⟨true, true, true, true⟩
     (refresh ⟨true, true, true, true⟩
       ⟨[[], [['a']], [['a'], ['b'], ['c']], [['d']]], 0, 2, 80, 0, 0, 0,
         false, true, []⟩ 1 (0, 0)).1
     2 0 2 [(3, 0, 0)] (by decide)).2⟩

/-- C10: `refresh` treats the caller's screen list as its own.  When the
snap-back branch fires (`offset > 0` and the desired screen would again fit
without scrolling), the blank line is appended to the very list object the
caller passed in; and in every call the engine stores the caller's reference
(not a copy) as its displayed-screen state, so the engine's screen aliases
the caller's object afterwards. -/
theorem C10_refresh_aliases_caller (cfg : TermConfig) (st : CState)
    (argRef : Nat) (cx cy : Nat) (hlt : argRef < st.store.length)
    (hsnap : snap_append st.offset st.height
      (sget st.store argRef).length cy = true) :
    sget (refresh cfg st argRef (cx, cy)).1.store argRef =
      sget st.store argRef ++ [[]] ∧
    (refresh cfg st argRef (cx, cy)).1.screenRef = argRef ∧
    (∀ (st2 : CState) (argRef2 : Nat) (c2 : Nat × Nat),
      (refresh cfg st2 argRef2 c2).1.screenRef = argRef2) := by
  obtain ⟨mid, heq, hsr, _, _, _, _, _, _, hsg⟩ := refresh_after cfg st argRef (cx, cy)
  refine ⟨?_, ?_, ?_⟩
  · rw [heq, move_cursor_store, hsg hlt, hsnap]
    simp
  · rw [heq, move_cursor_screenRef, hsr]
  · intro st2 argRef2 c2
    obtain ⟨mid2, heq2, hsr2, _⟩ := refresh_after cfg st2 argRef2 c2
    rw [heq2, move_cursor_screenRef, hsr2]

/-- Witness for C10 on a concrete snap-back refresh. -/
theorem C10_refresh_aliases_caller_witness :
    (1 < 2 ∧ snap_append 1 2 2 1 = true) ∧
    sget (refresh ⟨true, true, true, true⟩
        ⟨[[['x']], [['a'], ['b']]], 0, 2, 80, 0, 0, 1, true, true, []⟩
        1 (0, 1)).1.store 1 = [['a'], ['b'], []] :=
  ⟨⟨by decide, by decide⟩, by
    have h := (C10_refresh_aliases_caller ⟨true, true, true, true⟩
      ⟨[[['x']], [['a'], ['b']]], 0, 2, 80, 0, 0, 1, true, true, []⟩
      1 0 1 (by decide) (by decide)).1
    exact h⟩

/-! Lemmas describing the no-op paths of `refresh`, used for the short-mode
idempotence theorem. -/

theorem grow_short_stop (fuel : Nat) (st : CState) (argRef : Nat)
    (h : ¬ (sget st.store st.screenRef).length <
      min (sget st.store argRef).length st.height) :
    grow_short fuel st argRef = (st, []) := by
  cases fuel with
  | zero => rfl
  | succ n =>
      rw [grow_short]
      dsimp only
      rw [if_neg h]

theorem refresh_grown_self (st : CState) (argRef : Nat)
    (hgt : st.gone_tall = false) (href : st.screenRef = argRef) :
    refresh_grown st argRef = (st, []) := by
  unfold refresh_grown
  rw [hgt]
  simp only [Bool.false_eq_true, if_false]
  apply grow_short_stop
  rw [href]
  exact Nat.not_lt.2 (Nat.min_le_left _ _)

theorem refresh_tallify_id (st : CState) (argRef : Nat)
    (h : ¬ st.height < (sget st.store argRef).length) :
    refresh_tallify st argRef = st := by
  unfold refresh_tallify
  rw [if_neg h]

theorem refresh_snap_id (st : CState) (argRef cy : Nat)
    (h : snap_append st.offset st.height (sget st.store argRef).length cy = false) :
    refresh_snap st argRef cy = st := by
  unfold refresh_snap
  rw [h]
  simp

theorem refresh_scroll_same (cfg : TermConfig) (st : CState) (o h : Nat)
    (scr : ScreenV) :
    refresh_scroll cfg st o o h scr = (st, scr, []) := by
  unfold refresh_scroll
  rw [if_neg (by simp), if_neg (by simp)]

theorem reconcile_lines_same (cfg : TermConfig) :
    ∀ (n : Nat) (st : CState) (y : Nat) (l : List Line) (px : Nat),
    reconcile_lines cfg st n y l l px = (st, []) := by
  intro n
  induction n with
  | zero => intro st y l px; cases l <;> rfl
  | succ n ih =>
      intro st y l px
      cases l with
      | nil => rfl
      | cons o os =>
          rw [reconcile_lines]
          rw [if_neg (by simp), ih]
          rfl

theorem clear_tail_zero (st : CState) (y : Nat) : clear_tail st y 0 = (st, []) := rfl

theorem show_cursor_id (st : CState) (h : st.cursor_visible = true) :
    show_cursor st = (st, []) := by
  unfold show_cursor
  rw [h]
  simp

theorem new_offset_zero (h L cy : Nat) (hcy : cy < L) (hlen : L ≤ h) :
    new_offset 0 h L cy = 0 := by
  unfold new_offset
  rw [if_neg (by omega), if_neg (by omega), if_neg (by simp)]

theorem snap_append_zero (h L cy : Nat) (hcy : cy < L) (hlen : L ≤ h) :
    snap_append 0 h L cy = false := by
  unfold snap_append
  rw [if_neg (by omega), if_neg (by omega)]
  simp

/-- After a short-mode `refresh` with a fitting screen and a valid cursor
row, the engine is synchronized with the caller's screen object: still in
short mode at offset 0, holding the caller's reference, cursor parked at the
requested position and visible. -/
theorem refresh_short_synced (cfg : TermConfig) (st : CState) (argRef : Nat)
    (cx cy : Nat) (hgt : st.gone_tall = false) (hoff0 : st.offset = 0)
    (hlen : (sget st.store argRef).length ≤ st.height)
    (hcy : cy < (sget st.store argRef).length) :
    (refresh cfg st argRef (cx, cy)).1.gone_tall = false ∧
    (refresh cfg st argRef (cx, cy)).1.offset = 0 ∧
    (refresh cfg st argRef (cx, cy)).1.screenRef = argRef ∧
    sget (refresh cfg st argRef (cx, cy)).1.store argRef = sget st.store argRef ∧
    (refresh cfg st argRef (cx, cy)).1.height = st.height ∧
    (refresh cfg st argRef (cx, cy)).1.posx = cx ∧
    (refresh cfg st argRef (cx, cy)).1.posy = cy ∧
    (refresh cfg st argRef (cx, cy)).1.cursor_visible = true := by
  have hnotlt : ¬ st.height < (sget st.store argRef).length := Nat.not_lt.2 hlen
  have hno : new_offset st.offset st.height (sget st.store argRef).length cy = 0 := by
    rw [hoff0]; exact new_offset_zero _ _ _ hcy hlen
  have hsnapf : snap_append st.offset st.height
      (sget st.store argRef).length cy = false := by
    rw [hoff0]; exact snap_append_zero _ _ _ hcy hlen
  obtain ⟨mid, heq, hsr, hh, hoffm, hgtm, hvism, hlenm, hsg, _⟩ :=
    refresh_after cfg st argRef (cx, cy)
  have hcond : ¬(cy < mid.offset ∨ mid.offset + mid.height ≤ cy) := by
    rw [hoffm, hno, hh]
    omega
  have hmc : move_cursor mid cx cy =
      ({ mid with posx := cx, posy := cy }, cmove mid cx cy) := by
    unfold move_cursor
    rw [if_neg hcond]
  rw [heq, hmc]
  refine ⟨?_, ?_, ?_, ?_, ?_, rfl, rfl, ?_⟩
  · show mid.gone_tall = false
    rw [hgtm, hgt, decide_eq_false hnotlt, Bool.or_false]
  · show mid.offset = 0
    rw [hoffm, hno]
  · exact hsr
  · show sget mid.store argRef = _
    exact hsg hsnapf
  · exact hh
  · exact hvism

/-- A `refresh` on a state already synchronized with the caller's screen
object (short mode, offset 0, aliased reference, fitting screen, cursor
already at the requested position, cursor visible) emits nothing. -/
theorem refresh_synced_out (cfg : TermConfig) (st : CState) (argRef : Nat)
    (cx cy : Nat) (hgt : st.gone_tall = false) (hoff0 : st.offset = 0)
    (href : st.screenRef = argRef)
    (hlen : (sget st.store argRef).length ≤ st.height)
    (hcy : cy < (sget st.store argRef).length)
    (hpx : st.posx = cx) (hpy : st.posy = cy)
    (hvis : st.cursor_visible = true) :
    (refresh cfg st argRef (cx, cy)).2 = [] := by
  have hnotlt : ¬ st.height < (sget st.store argRef).length := Nat.not_lt.2 hlen
  have hno : new_offset st.offset st.height (sget st.store argRef).length cy = 0 := by
    rw [hoff0]; exact new_offset_zero _ _ _ hcy hlen
  have hsnapf : snap_append st.offset st.height
      (sget st.store argRef).length cy = false := by
    rw [hoff0]; exact snap_append_zero _ _ _ hcy hlen
  unfold refresh
  dsimp only
  rw [refresh_grown_self st argRef hgt href]
  dsimp only
  rw [refresh_tallify_id st argRef hnotlt, refresh_snap_id st argRef cy hsnapf,
    hno, hoff0, refresh_scroll_same, href]
  dsimp only
  rw [reconcile_lines_same]
  dsimp only
  rw [Nat.sub_self, clear_tail_zero]
  dsimp only
  rw [show_cursor_id ({ st with offset := 0, screenRef := argRef }) hvis]
  dsimp only
  unfold move_cursor
  rw [if_neg (by dsimp only; omega)]
  dsimp only
  unfold cmove
  rw [show ({ st with offset := 0, screenRef := argRef } : CState).gone_tall =
    st.gone_tall from rfl, hgt]
  simp only [Bool.false_eq_true, if_false]
  unfold move_short move_x_parm_cursor move_y_parm_cursor
  dsimp only
  rw [hpx, hpy]
  simp

/-- C2 (amended): `refresh` is idempotent with respect to emitted output in
short mode — when the engine has not gone tall, the offset is 0, the desired
screen fits within the terminal height and the desired cursor row is valid,
a second call with the same screen object and cursor emits no writes: no
text chunks and no capability invocations.  (In tall mode the source's
`__move_tall` addresses the cursor unconditionally, so a second call emits a
cursor-address capability; see the counterexample.) -/
theorem C2_refresh_idempotent_short (cfg : TermConfig) (st : CState)
    (argRef : Nat) (cx cy : Nat) (hgt : st.gone_tall = false)
    (hoff0 : st.offset = 0)
    (hlen : (sget st.store argRef).length ≤ st.height)
    (hcy : cy < (sget st.store argRef).length) :
    (refresh cfg (refresh cfg st argRef (cx, cy)).1 argRef (cx, cy)).2 = [] := by
  obtain ⟨h1, h2, h3, h4, h5, h6, h7, h8⟩ :=
    refresh_short_synced cfg st argRef cx cy hgt hoff0 hlen hcy
  exact refresh_synced_out cfg _ argRef cx cy h1 h2 h3
    (by rw [h4, h5]; exact hlen) (by rw [h4]; exact hcy) h6 h7 h8

/-- Witness for the amended C2 on a concrete short-mode refresh pair. -/
theorem C2_refresh_idempotent_short_witness :
    ((false = false ∧ 0 = 0) ∧ 2 ≤ 5 ∧ 1 < 2) ∧
    (refresh ⟨true, true, true, true⟩
      (refresh ⟨true, true, true, true⟩
        ⟨[[], [['a'], ['b']]], 0, 5, 80, 0, 0, 0, false, true, []⟩
        1 (1, 1)).1 1 (1, 1)).2 = [] :=
  ⟨⟨⟨rfl, rfl⟩, by decide, by decide⟩,
   C2_refresh_idempotent_short ⟨true, true, true, true⟩
     ⟨[[], [['a'], ['b']]], 0, 5, 80, 0, 0, 0, false, true, []⟩
     1 1 1 rfl rfl (by decide) (by decide)⟩

/-- C2 counterexample: the claim as stated — a second identical `refresh`
emits nothing for every screen and cursor — fails in tall mode.  With a
3-line screen on a height-2 terminal, the second identical call still emits
a cursor-address capability invocation (from the unconditional
`__move_tall`), i.e. its output is non-empty. -/
theorem C2_refresh_idempotent_counterexample :
    (refresh ⟨true, true, true, true⟩
      (refresh ⟨true, true, true, true⟩
        ⟨[[], [['a'], ['b'], ['c']]], 0, 2, 80, 0, 0, 0, false, true, []⟩
        1 (0, 2)).1 1 (0, 2)).2 =
      [OutItem.cursor_address 1 0] ∧
    (refresh ⟨true, true, true, true⟩
      (refresh ⟨true, true, true, true⟩
        ⟨[[], [['a'], ['b'], ['c']]], 0, 2, 80, 0, 0, 0, false, true, []⟩
        1 (0, 2)).1 1 (0, 2)).2 ≠ [] := by
  refine ⟨by decide, by decide⟩

/-- C5: line-diff minimality for a single insertion.  With the displayed
line `"abcdef"`, the desired line `"abXcdef"` and insert-character
supported, in short mode with the physical cursor at column 0 of the same
row, the per-line reconciliation emits exactly one cursor move to the diff
column (one `parm_right_cursor 2`, i.e. a move from column 0 to column 2),
one insert-character invocation, and one single-character write of the
inserted `'X'` — no rewrite of the rest of the line — and leaves the
position at column 3. -/
theorem C5_single_insert (cfg : TermConfig) (st : CState) (y : Nat)
    (hich : cfg.has_insert_character = true) (hgt : st.gone_tall = false)
    (hpy : st.posy = y) (hpx : st.posx = 0) :
    (write_changed_line cfg st y "abcdef".toList "abXcdef".toList 0).2 =
      [OutItem.parm_right_cursor 2, OutItem.insert_character,
        OutItem.text ['X']] ∧
    (write_changed_line cfg st y "abcdef".toList "abXcdef".toList 0).1.posx = 3 := by
  have hx0 : diffIdx "abcdef".toList "abXcdef".toList = 2 := by decide
  unfold write_changed_line
  dsimp only
  rw [hx0]
  have hc1 : ("abcdef".toList.drop 2 = "abXcdef".toList.drop (2 + 1)) ∧
      cfg.has_insert_character = true := ⟨by decide, hich⟩
  rw [if_pos hc1]
  have hc2 : ¬(y = st.posy ∧ st.posx < 2 ∧
      pyslice "abcdef".toList 0 2 = pyslice "abXcdef".toList (0 + 1) (2 + 1)) := by
    rintro ⟨-, -, h3⟩
    exact absurd h3 (by decide)
  rw [if_neg hc2]
  have hc3 : ¬("abXcdef".toList.contains '\x1b' = true) := by decide
  rw [if_neg hc3]
  unfold cmove
  rw [hgt]
  simp only [Bool.false_eq_true, if_false]
  unfold move_short move_x_parm_cursor move_y_parm_cursor
  dsimp only
  rw [hpx, hpy]
  norm_num
  decide

/-- Witness for C5 at a concrete console state. -/
theorem C5_single_insert_witness :
    (true = true ∧ false = false ∧ (5 : Nat) = 5 ∧ (0 : Nat) = 0) ∧
    ((write_changed_line ⟨true, true, true, true⟩
        ⟨[], 0, 24, 80, 0, 5, 0, false, true, []⟩ 5
        "abcdef".toList "abXcdef".toList 0).2 =
      [OutItem.parm_right_cursor 2, OutItem.insert_character,
        OutItem.text ['X']] ∧
      (write_changed_line ⟨true, true, true, true⟩
        ⟨[], 0, 24, 80, 0, 5, 0, false, true, []⟩ 5
        "abcdef".toList "abXcdef".toList 0).1.posx = 3) :=
  ⟨⟨rfl, rfl, rfl, rfl⟩,
   C5_single_insert ⟨true, true, true, true⟩
     ⟨[], 0, 24, 80, 0, 5, 0, false, true, []⟩ 5 rfl rfl rfl rfl⟩

end UnixConsole

/-! ### Lemmas about event retrieval -/

namespace UnixConsole

/-- C8: when the blocking read inside `get_event` is interrupted by a signal
(`EINTR`), a now non-empty event queue is answered from the queue with no
further read; an empty queue leads to a retried read; any other read error
propagates. -/
theorem C8_eintr_recovery (pushFn : List PEvent → Nat → List PEvent)
    (rs : List ReadRes) (block : Bool) (inj : List PEvent) (errno : Nat)
    (hinj : inj ≠ []) :
    (get_event pushFn [] (ReadRes.eintr inj :: rs) block =
       GEOut.ret inj.head? inj.tail rs) ∧
    (get_event pushFn [] (ReadRes.eintr [] :: rs) block =
       get_event pushFn [] rs block) ∧
    (get_event pushFn [] (ReadRes.fail errno :: rs) block = GEOut.raised errno) := by
  refine ⟨?_, rfl, rfl⟩
  cases inj with
  | nil => exact absurd rfl hinj
  | cons e q => rfl

/-- Witness for C8 at a concrete interrupted-read trace. -/
theorem C8_eintr_recovery_witness :
    ([(⟨"resize", "", []⟩ : PEvent)] ≠ ([] : List PEvent)) ∧
    (get_event (fun q _ => q) [] [ReadRes.eintr [⟨"resize", "", []⟩]] true =
       GEOut.ret (some ⟨"resize", "", []⟩) [] []) := by
  refine ⟨by decide, ?_⟩
  exact (C8_eintr_recovery (fun q _ => q) [] true [⟨"resize", "", []⟩] 4
    (by decide)).1

/-- C9: the source accumulates `e.raw += e.raw` (instead of `e2.raw`) while
draining the queue, so the raw bytes of queued events are dropped: with one
queued key event whose raw bytes are `b"a"` and no pending input, the
synthetic event's `data` is `"a"` but its `raw` is empty rather than the
concatenation `b"a"` the specification requires. -/
theorem C9_getpending_drops_queued_raw :
    (getpending (fun _ => "") [⟨"key", "a", [97]⟩] []).1.data = "a" ∧
    (getpending (fun _ => "") [⟨"key", "a", [97]⟩] []).1.raw = [] ∧
    (getpending (fun _ => "") [⟨"key", "a", [97]⟩] []).1.raw ≠ [97] ∧
    (getpending (fun _ => "") [⟨"key", "a", [97]⟩] []).2 = [] := by
  refine ⟨rfl, rfl, by decide, rfl⟩

end UnixConsole

end Pyrepl
